import Mathlib

/-!
Verification of the WikiGameLLM bot (`llmBot.py`).

The bot plays the "Wiki Game": starting from one Wikipedia article it
navigates outbound links towards a target article, asking a language model
to pick the next link unless the target is directly linked.

External services (the Wikipedia API, the `validate_pages` /
`get_page_summary` / `search_wiki` helpers from `funcs.py`, the LLM endpoint
and `difflib.get_close_matches`) are modelled as inputs: each turn receives
a `TurnEnv` carrying the already-validated outbound links of the current
page, the page summary, the raw model reply, and the fuzzy matcher.
-/

/-- Per-turn external data consumed by `WikiGameLLMBot.take_turn`:
`validPages` is the ordered output of `validate_pages(current_page)`,
`summary` the output of `get_page_summary(current_page)`,
`modelReply` the `response.content` string returned by `self.llm.invoke`,
and `closeMatch` the behaviour of `difflib.get_close_matches` with `n=1`
(a list that is either empty or a singleton holding the best match). -/
structure TurnEnv where
  validPages : List String
  summary : String
  modelReply : String
  closeMatch : String → List String → List String

/-- Errors that abort a turn: `malformedResponse` is the `IndexError`
raised by `response.content.split('=')[1]` when the reply has no `=`;
`noMatch` is the `IndexError` raised by
`difflib.get_close_matches(proposedPage, pages, n=1)[0]` when no candidate
is close enough. -/
inductive TurnError where
  | malformedResponse
  | noMatch
deriving DecidableEq, Repr

/-- The shape of the Python value returned by `take_turn`:
`pair t c` models `return self.target_topic, 1` (a 2-tuple of topic and
confidence), `single t` models `return most_similar` (a bare string). -/
inductive TurnReturn where
  | pair (topic : String) (confidence : Int)
  | single (topic : String)
deriving DecidableEq, Repr

/-- The topic carried by a `take_turn` return value. -/
def TurnReturn.topic : TurnReturn → String
  | .pair t _ => t
  | .single t => t

/-- Number of components of the returned Python value: a 2-tuple has two,
a bare string one. -/
def TurnReturn.components : TurnReturn → Nat
  | .pair _ _ => 2
  | .single _ => 1

/-- Python `s.split('=')` on the character list of `s`: splits at every
`'='`, keeping empty segments, so that `"a=b=c"` yields `["a","b","c"]`
and a string without `'='` yields the singleton of itself. -/
def splitOnEqList : List Char → List (List Char)
  | [] => [[]]
  | c :: cs =>
    if c = '=' then [] :: splitOnEqList cs
    else
      match splitOnEqList cs with
      | [] => [[c]]
      | x :: xs => (c :: x) :: xs

/-- `response.content.split('=')[1]` from `llmBot.py` line 198: element 1
of the split, `none` when the split has fewer than two segments (the
Python `IndexError` case). -/
def parseProposal (content : String) : Option String :=
  ((splitOnEqList content.toList).get? 1).map (fun cs => ⟨cs⟩)

/-- The characters after the first `'='` of a list, `none` if there is no
`'='`. -/
def afterFirstEqList : List Char → Option (List Char)
  | [] => none
  | c :: cs => if c = '=' then some cs else afterFirstEqList cs

/-- Modelled from the spec: "Parse the reply by splitting on the first `=`
and taking the remainder as the proposed topic" — the entire remainder of
the reply after the first `'='` character. Stated from the spec's words to
compare against `parseProposal`, which embeds the source. -/
def remainderAfterFirstEq (s : String) : Option String :=
  (afterFirstEqList s.toList).map (fun cs => ⟨cs⟩)

/-- The Candidate Link Set built by `take_turn` (`llmBot.py` lines
169-170): the validated outbound links with every visited page removed,
truncated to the first 25. -/
def candidates (env : TurnEnv) (visited : List String) : List String :=
  (env.validPages.filter (fun p => decide (p ∉ visited))).take 25

/-- `WikiGameLLMBot.take_turn` (`llmBot.py` lines 144-205), given the
session's target topic, the per-turn external data and the visited list.
The first component counts the calls issued to `self.llm.invoke`
(0 on the short-circuit path, 1 otherwise — the model is invoked before
the reply is parsed). -/
def take_turn (target : String) (env : TurnEnv) (visited : List String) :
    Nat × Except TurnError TurnReturn :=
  let pages := candidates env visited
  if target ∈ pages then
    (0, .ok (.pair target 1))
  else
    match parseProposal env.modelReply with
    | none => (1, .error .malformedResponse)
    | some proposed =>
      match env.closeMatch proposed pages with
      | [] => (1, .error .noMatch)
      | m :: _ => (1, .ok (.single m))

/-- A constructed session: the resolved start and target topics. -/
structure Session where
  start_topic : String
  target_topic : String
deriving DecidableEq, Repr

/-- The distinctness check of `WikiGameLLMBot.__init__` (`llmBot.py`
lines 100-101): after `get_topics` has resolved both topics, the
constructor asserts they differ. Takes the resolved topics as inputs
(resolution itself is an external search). -/
def initBot (resolvedStart resolvedTarget : String) : Except String Session :=
  if resolvedStart = resolvedTarget then
    .error "Please enter different start and target topics."
  else
    .ok ⟨resolvedStart, resolvedTarget⟩

/-- One row of the game log, as appended by `play_game` via `log_turn`
(`llmBot.py` lines 244-252): the five keys of the `turn_dict`. -/
structure TurnRecord where
  starting_topic : String
  target_topic : String
  turn : Nat
  current_topic : String
  current_summary : String
deriving DecidableEq, Repr

/-- The loop state of `play_game`: turn counter, current topic, visited
set (a list with set semantics: inserted once, membership tested), and the
game log as an ordered list of records. -/
structure GameState where
  turn_num : Nat
  current_topic : String
  visited : List String
  log : List TurnRecord
deriving DecidableEq, Repr

/-- The initial state of `play_game` (`llmBot.py` lines 222-229):
`turn_num = 1`, `current_topic = start_topic`, empty visited set, empty
log. -/
def initState (bot : Session) : GameState :=
  ⟨1, bot.start_topic, [], []⟩

/-- One iteration of the `while True` loop of `play_game` (`llmBot.py`
lines 232-274): add the current topic to `visited`, take a turn, append
the turn record, move to the returned topic and increment the counter.
A `TurnError` propagates (the Python exceptions are uncaught). -/
def gameStep (bot : Session) (env : TurnEnv) (st : GameState) :
    Except TurnError GameState :=
  let visited' :=
    if st.current_topic ∈ st.visited then st.visited
    else st.visited ++ [st.current_topic]
  match (take_turn bot.target_topic env visited').2 with
  | .error e => .error e
  | .ok r =>
    .ok { turn_num := st.turn_num + 1
          current_topic := r.topic
          visited := visited'
          log := st.log ++ [{ starting_topic := bot.start_topic
                              -- llmBot.py line 247 stores self.start_topic
                              -- under the 'target_topic' key
                              target_topic := bot.start_topic
                              turn := st.turn_num
                              current_topic := st.current_topic
                              current_summary := env.summary }] }

/-- `play_game` run for a given number of loop iterations (the Python
loop is `while True` with no exit condition; the iteration count makes
each finite prefix of the run observable). `world t` is the external data
seen by the iteration whose turn number is `t`. -/
def play_game (bot : Session) (world : Nat → TurnEnv) :
    Nat → GameState → Except TurnError GameState
  | 0, st => .ok st
  | n + 1, st =>
    match gameStep bot (world st.turn_num) st with
    | .error e => .error e
    | .ok st' => play_game bot world n st'

/-! ### Helper lemmas -/

/-- `splitOnEqList` never returns the empty list. -/
theorem splitOnEqList_ne_nil (cs : List Char) : splitOnEqList cs ≠ [] := by
  induction cs with
  | nil => simp [splitOnEqList]
  | cons c cs ih =>
    by_cases hc : c = '='
    · simp [splitOnEqList, hc]
    · cases h : splitOnEqList cs with
      | nil => exact absurd h ih
      | cons x xs => simp [splitOnEqList, hc, h]

/-- On a character list without `'='`, `splitOnEqList` is a singleton. -/
theorem splitOnEqList_of_no_eq (cs : List Char) (h : '=' ∉ cs) :
    splitOnEqList cs = [cs] := by
  induction cs with
  | nil => rfl
  | cons c cs ih =>
    have hc : c ≠ '=' := fun hcc => h (hcc ▸ List.mem_cons_self c cs)
    have hcs : '=' ∉ cs := fun hin => h (List.mem_cons_of_mem c hin)
    simp [splitOnEqList, hc, ih hcs]

/-! ### C1, C5, C10: the candidate set and the short-circuit -/

/-- C1: whenever the target topic is a member of the filtered, truncated
candidate list, `take_turn` returns the target with confidence 1 and
issues zero calls to the language model (`llmBot.py` lines 171-172). -/
theorem take_turn_short_circuit (target : String) (env : TurnEnv)
    (visited : List String) (h : target ∈ candidates env visited) :
    take_turn target env visited = (0, .ok (.pair target 1)) := by
  simp [take_turn, h]

/-- Concrete per-turn data for witnesses: the page for "Test" links to
"Christmas" and "Star". -/
def wEnv : TurnEnv :=
  ⟨["Christmas", "Star"], "summary of Test", "Next topic=Star",
   fun p pages => pages.filter (fun s => s == p)⟩

/-- Witness for C1 at a concrete input. -/
theorem take_turn_short_circuit_witness :
    "Christmas" ∈ candidates wEnv ["Test"] ∧
      take_turn "Christmas" wEnv ["Test"] = (0, .ok (.pair "Christmas" 1)) :=
  ⟨by decide, take_turn_short_circuit "Christmas" wEnv ["Test"] (by decide)⟩

/-- C5: the candidate list built by `take_turn` contains no element of the
visited set passed in and has length at most 25 (`llmBot.py` lines
169-170). -/
theorem candidates_fresh_and_bounded (env : TurnEnv) (visited : List String) :
    (candidates env visited).all (fun p => decide (p ∉ visited)) = true ∧
      (candidates env visited).length ≤ 25 := by
  constructor
  · apply List.all_eq_true.mpr
    intro p hp
    exact (List.mem_filter.mp (List.mem_of_mem_take hp)).2
  · calc (candidates env visited).length
        = min 25 (env.validPages.filter (fun p => decide (p ∉ visited))).length := by
          simp [candidates]
      _ ≤ 25 := Nat.min_le_left _ _

/-- C10: when the target topic is among the unvisited valid links but not
within the first 25 of them, the truncation hides it: the short-circuit
does not fire (no `pair` return) and the model is consulted (one call). -/
theorem truncation_hides_target (target : String) (env : TurnEnv)
    (visited : List String)
    (_hmem : target ∈ env.validPages.filter (fun p => decide (p ∉ visited)))
    (hout : target ∉ (env.validPages.filter (fun p => decide (p ∉ visited))).take 25) :
    (take_turn target env visited).1 = 1 ∧
      ∀ c, (take_turn target env visited).2 ≠ .ok (.pair target c) := by
  have hout' : target ∉ candidates env visited := hout
  constructor
  · unfold take_turn
    simp only [if_neg hout']
    split
    · rfl
    · split <;> rfl
  · intro c
    unfold take_turn
    simp only [if_neg hout']
    split
    · simp
    · split <;> simp

/-- Per-turn data whose 26th valid link is the target, for the C10
witness. -/
def wTruncEnv : TurnEnv :=
  ⟨List.replicate 25 "Filler" ++ ["Christmas"], "s", "Next topic=Filler",
   fun p pages => pages.filter (fun s => s == p)⟩

/-- Witness for C10 at a concrete input: the target sits at position 25
(the 26th link) and the short-circuit does not fire. -/
theorem truncation_hides_target_witness :
    (take_turn "Christmas" wTruncEnv []).1 = 1 ∧
      ∀ c, (take_turn "Christmas" wTruncEnv []).2 ≠ .ok (.pair "Christmas" c) :=
  truncation_hides_target "Christmas" wTruncEnv [] (by decide) (by decide)

/-! ### C3, C7: parsing the model reply -/

/-- The head of `splitOnEqList` is the longest `'='`-free prefix. -/
theorem splitOnEqList_head (cs : List Char) :
    (splitOnEqList cs).head? = some (cs.takeWhile (fun c => c != '=')) := by
  induction cs with
  | nil => rfl
  | cons c cs ih =>
    by_cases hc : c = '='
    · subst hc
      simp [splitOnEqList, List.takeWhile_cons]
    · cases h : splitOnEqList cs with
      | nil => exact absurd h (splitOnEqList_ne_nil cs)
      | cons x xs =>
        rw [h] at ih
        simp only [List.head?, Option.some.injEq] at ih
        simp [splitOnEqList, hc, h, List.takeWhile_cons, ih]

/-- Element 1 of the split is the remainder after the first `'='`,
truncated at the next `'='`. -/
theorem splitOnEqList_get1 (cs rest : List Char)
    (h : afterFirstEqList cs = some rest) :
    (splitOnEqList cs).get? 1 = some (rest.takeWhile (fun c => c != '=')) := by
  induction cs with
  | nil => simp [afterFirstEqList] at h
  | cons c cs ih =>
    by_cases hc : c = '='
    · subst hc
      have hrest : cs = rest := by simpa [afterFirstEqList] using h
      subst hrest
      have hh := splitOnEqList_head cs
      cases hs : splitOnEqList cs with
      | nil => exact absurd hs (splitOnEqList_ne_nil cs)
      | cons x xs =>
        rw [hs] at hh
        simp only [List.head?, Option.some.injEq] at hh
        simp [splitOnEqList, hs, hh]
    · simp only [afterFirstEqList, if_neg hc] at h
      have := ih h
      cases hs : splitOnEqList cs with
      | nil => exact absurd hs (splitOnEqList_ne_nil cs)
      | cons x xs =>
        rw [hs] at this
        simp [splitOnEqList, hc, hs]
        simpa using this

/-- C3 counterexample: on the reply `"Next topic=Paris=France"` the
remainder after the first `'='` is `"Paris=France"`, but the code's
`split('=')[1]` extracts only `"Paris"`. -/
theorem parse_not_whole_remainder :
    remainderAfterFirstEq "Next topic=Paris=France" = some "Paris=France" ∧
      parseProposal "Next topic=Paris=France" = some "Paris" ∧
      parseProposal "Next topic=Paris=France" ≠
        remainderAfterFirstEq "Next topic=Paris=France" := by
  refine ⟨by rfl, by rfl, ?_⟩
  intro h
  rw [show parseProposal "Next topic=Paris=France" = some "Paris" from rfl,
    show remainderAfterFirstEq "Next topic=Paris=France" = some "Paris=France" from rfl] at h
  simp at h

/-- C3 amended: for every model reply with at least one `'='`, the
proposal extracted by `take_turn` is the remainder of the reply after the
first `'='` truncated at the next `'='` (the whole remainder only when no
second `'='` exists). -/
theorem parse_between_first_eqs (s : String) (rest : List Char)
    (h : afterFirstEqList s.toList = some rest) :
    parseProposal s = some ⟨rest.takeWhile (fun c => c != '=')⟩ := by
  unfold parseProposal
  rw [splitOnEqList_get1 s.toList rest h]
  rfl

/-- Witness for the amended C3 at a concrete input. -/
theorem parse_between_first_eqs_witness :
    afterFirstEqList ("Next topic=Paris=France").toList =
        some ("Paris=France").toList ∧
      parseProposal "Next topic=Paris=France" =
        some ⟨("Paris=France").toList.takeWhile (fun c => c != '=')⟩ :=
  ⟨by decide, parse_between_first_eqs "Next topic=Paris=France" _ (by decide)⟩

/-- A reply without `'='` does not parse (`split('=')[1]` has no element
1: the Python `IndexError`). -/
theorem parseProposal_eq_none_of_no_eq (s : String) (h : '=' ∉ s.toList) :
    parseProposal s = none := by
  unfold parseProposal
  rw [splitOnEqList_of_no_eq s.toList h]
  rfl

/-- C7: when the short-circuit does not fire and the model reply contains
no `'='`, `take_turn` fails with the parsing fault instead of selecting a
next topic (`llmBot.py` line 198). -/
theorem take_turn_malformed_reply (target : String) (env : TurnEnv)
    (visited : List String) (hne : target ∉ candidates env visited)
    (h : '=' ∉ env.modelReply.toList) :
    (take_turn target env visited).2 = .error .malformedResponse := by
  unfold take_turn
  simp only [if_neg hne, parseProposal_eq_none_of_no_eq env.modelReply h]

/-- Per-turn data whose model reply lacks `'='`, for the C7 witness. -/
def wBadEnv : TurnEnv :=
  ⟨["Star"], "s", "I choose Star",
   fun p pages => pages.filter (fun s => s == p)⟩

/-- Witness for C7 at a concrete input. -/
theorem take_turn_malformed_reply_witness :
    "Christmas" ∉ candidates wBadEnv [] ∧
      '=' ∉ ("I choose Star").toList ∧
      (take_turn "Christmas" wBadEnv []).2 = .error .malformedResponse :=
  ⟨by decide, by decide,
    take_turn_malformed_reply "Christmas" wBadEnv [] (by decide) (by decide)⟩

/-! ### C6: the construction-time distinctness check -/

/-- C6: construction fails exactly when the resolved start and target
topics are equal, and a successfully constructed session has distinct
start and target topics (`llmBot.py` lines 100-101). -/
theorem initBot_distinct (s t : String) :
    ((initBot s t).isOk ↔ s ≠ t) ∧
      ∀ bot, initBot s t = .ok bot → bot.start_topic ≠ bot.target_topic := by
  constructor
  · by_cases h : s = t
    · subst h
      simp [initBot, Except.isOk, Except.toBool]
    · simp [initBot, h, Except.isOk, Except.toBool]
  · intro bot hbot
    by_cases h : s = t
    · simp [initBot, h] at hbot
    · have hb : bot = ⟨s, t⟩ := by
        simp [initBot, h] at hbot
        exact hbot.symm
      rw [hb]
      simpa using h

/-- Witness for C6 at concrete inputs: distinct topics construct, and the
constructed session keeps them distinct. -/
theorem initBot_distinct_witness :
    initBot "Test" "Christmas" = .ok ⟨"Test", "Christmas"⟩ ∧
      (Session.mk "Test" "Christmas").start_topic ≠
        (Session.mk "Test" "Christmas").target_topic :=
  ⟨by rfl,
    (initBot_distinct "Test" "Christmas").2 ⟨"Test", "Christmas"⟩ (by rfl)⟩

/-! ### C4: the shape of the value returned by take_turn -/

/-- C4 counterexample: `take_turn` never returns a triple — the
short-circuit path returns the 2-tuple `(target, 1)` and the model-driven
path returns a bare string (one component), so neither return carries a
`current_summary` third component. -/
theorem take_turn_not_triple :
    (take_turn "Christmas" wEnv ["Test"]).2 = .ok (.pair "Christmas" 1) ∧
      (TurnReturn.pair "Christmas" 1).components = 2 ∧
      (take_turn "Paris" wEnv ["Test"]).2 = .ok (.single "Star") ∧
      (TurnReturn.single "Star").components = 1 ∧
      (TurnReturn.pair "Christmas" 1).components ≠ 3 ∧
      (TurnReturn.single "Star").components ≠ 3 :=
  ⟨by rfl, by rfl, by rfl, by rfl, by decide, by decide⟩

/-- C4 amended: every normal return of `take_turn` is the 2-tuple
`(target_topic, 1)` on the short-circuit path and a bare matched-topic
string on the model-driven path; the summary is kept in the bot's
`current_summary` attribute, not returned. -/
theorem take_turn_return_shape (target : String) (env : TurnEnv)
    (visited : List String) :
    (target ∈ candidates env visited →
        (take_turn target env visited).2 = .ok (.pair target 1)) ∧
      (target ∉ candidates env visited →
        ∀ r, (take_turn target env visited).2 = .ok r → ∃ t, r = .single t) := by
  constructor
  · intro h
    simp [take_turn, h]
  · intro h r hr
    unfold take_turn at hr
    simp only [if_neg h] at hr
    split at hr
    · exact absurd hr (by simp)
    · split at hr
      · exact absurd hr (by simp)
      · exact ⟨_, (Except.ok.inj hr).symm⟩

/-- Witness for the amended C4 at a concrete input (model-driven path). -/
theorem take_turn_return_shape_witness :
    "Paris" ∉ candidates wEnv ["Test"] ∧
      (∃ t, TurnReturn.single "Star" = TurnReturn.single t) :=
  ⟨by decide,
    (take_turn_return_shape "Paris" wEnv ["Test"]).2 (by decide)
      (.single "Star") (by rfl)⟩

/-! ### C2, C8, C9: the game loop and its log -/

/-- One successful loop iteration increments the turn counter and appends
exactly one record, carrying the pre-increment turn number. -/
theorem gameStep_log (bot : Session) (env : TurnEnv) (st st' : GameState)
    (h : gameStep bot env st = .ok st') :
    st'.turn_num = st.turn_num + 1 ∧
      st'.log.map TurnRecord.turn = st.log.map TurnRecord.turn ++ [st.turn_num] := by
  simp only [gameStep] at h
  split at h
  · exact absurd h (by simp)
  · have hst := Except.ok.inj h
    rw [← hst]
    simp

/-- A successful `n`-iteration run advances the turn counter by `n` and
appends records carrying the consecutive turn numbers. -/
theorem play_game_log (bot : Session) (world : Nat → TurnEnv) :
    ∀ (n : Nat) (st st' : GameState),
      play_game bot world n st = .ok st' →
      st'.turn_num = st.turn_num + n ∧
        st'.log.map TurnRecord.turn =
          st.log.map TurnRecord.turn ++ List.range' st.turn_num n := by
  intro n
  induction n with
  | zero =>
    intro st st' h
    have hst : st = st' := by simpa [play_game] using h
    subst hst
    simp
  | succ n ih =>
    intro st st' h
    unfold play_game at h
    cases hstep : gameStep bot (world st.turn_num) st with
    | error e =>
      rw [hstep] at h
      exact absurd h (by simp)
    | ok st1 =>
      rw [hstep] at h
      obtain ⟨ht, hl⟩ := ih st1 st' h
      obtain ⟨ht1, hl1⟩ := gameStep_log bot (world st.turn_num) st st1 hstep
      refine ⟨by omega, ?_⟩
      rw [hl, hl1, ht1, List.append_assoc]
      congr 1

/-- C9: after `N` completed turns from the initial state, the game log
holds exactly `N` records, appended in turn order with turn numbers
1, 2, ..., N (`llmBot.py` lines 222-274). -/
theorem game_log_after_n_turns (bot : Session) (world : Nat → TurnEnv)
    (n : Nat) (st : GameState)
    (h : play_game bot world n (initState bot) = .ok st) :
    st.log.length = n ∧ st.log.map TurnRecord.turn = List.range' 1 n := by
  obtain ⟨-, hl⟩ := play_game_log bot world n (initState bot) st h
  simp only [initState, List.map_nil, List.nil_append] at hl
  refine ⟨?_, hl⟩
  have hlen := congrArg List.length hl
  simpa using hlen

/-- A concrete two-turn session for the C9 witness. -/
def wBot : Session := ⟨"Start", "Zzz"⟩

/-- External data for the two-turn witness run: the target is never
linked, the model picks "B" then "A". -/
def wWorld : Nat → TurnEnv := fun t =>
  if t = 1 then
    ⟨["A", "B"], "s1", "Next topic=B",
     fun p pages => pages.filter (fun s => s == p)⟩
  else
    ⟨["A", "B"], "s2", "Next topic=A",
     fun p pages => pages.filter (fun s => s == p)⟩

/-- The state reached by the two-turn witness run. -/
def wFinal : GameState :=
  ⟨3, "A", ["Start", "B"],
   [⟨"Start", "Start", 1, "Start", "s1"⟩, ⟨"Start", "Start", 2, "B", "s2"⟩]⟩

/-- Witness for C9: a concrete two-turn run logs exactly the turn numbers
[1, 2]. -/
theorem game_log_after_n_turns_witness :
    wFinal.log.length = 2 ∧ wFinal.log.map TurnRecord.turn = List.range' 1 2 :=
  game_log_after_n_turns wBot wWorld 2 wFinal (by rfl)

/-- The session of the C2 failing run: start "Test", target "Christmas". -/
def c2Bot : Session := ⟨"Test", "Christmas"⟩

/-- External data for the C2 failing run: "Test" links directly to
"Christmas", so turn 1 short-circuits. -/
def c2World : Nat → TurnEnv := fun _ =>
  ⟨["Christmas"], "summary", "Next topic=Christmas",
   fun p pages => pages.filter (fun s => s == p)⟩

/-- C2: `llmBot.py` line 247 appends `self.start_topic` under the
`'target_topic'` log key, so after one turn of the concrete session
(start "Test", target "Christmas") the logged `target_topic` is "Test",
not the session's target "Christmas". -/
theorem log_target_topic_is_start :
    (play_game c2Bot c2World 1 (initState c2Bot)).map
        (fun st => st.log.map TurnRecord.target_topic) = .ok ["Test"] ∧
      c2Bot.target_topic = "Christmas" ∧ ("Test" : String) ≠ "Christmas" :=
  ⟨by rfl, by rfl, by decide⟩

/-- The session of the C8 failing run. -/
def c8Bot : Session := ⟨"Test", "Christmas"⟩

/-- External data for the C8 failing run: turn 1 short-circuits to the
target; turn 2 (current topic already equal to the target) still runs,
on a page linking to "Star". -/
def c8World : Nat → TurnEnv := fun t =>
  if t = 1 then
    ⟨["Christmas"], "s1", "Next topic=Christmas",
     fun p pages => pages.filter (fun s => s == p)⟩
  else
    ⟨["Star"], "s2", "Next topic=Star",
     fun p pages => pages.filter (fun s => s == p)⟩

/-- C8: the `while True` loop of `play_game` has no exit condition
(`llmBot.py` lines 232-274): after turn 1 the current topic already equals
the target "Christmas", yet iteration 2 still executes — the log grows to
two records and the bot moves off the target to "Star". -/
theorem loop_continues_past_target :
    (play_game c8Bot c8World 1 (initState c8Bot)).map GameState.current_topic =
        .ok "Christmas" ∧
      c8Bot.target_topic = "Christmas" ∧
      (play_game c8Bot c8World 2 (initState c8Bot)).map
          (fun st => (st.log.length, st.current_topic)) = .ok (2, "Star") :=
  ⟨by rfl, by rfl, by rfl⟩

/-- Witness for C5 at a concrete input. -/
theorem candidates_fresh_and_bounded_witness :
    (candidates wEnv ["Test"]).all (fun p => decide (p ∉ ["Test"])) = true ∧
      (candidates wEnv ["Test"]).length ≤ 25 :=
  candidates_fresh_and_bounded wEnv ["Test"]
